import Mathlib

/-!
# Verification of the adt-press PDF extractor core

Shallow embedding of `src/tools/pdf_extractor/pdf_extractor.py` and
`src/tools/pdf_extractor/models.py`, with theorems settling the claims about
the page/spread planner, image extraction, stitching, validation and
serialization.

Pages are natural numbers; CLI-level page arguments are integers (Python ints
from argparse). External collaborators (raster discovery, the vector-region
detector, page rendering, text layers) are parameters of the embedding, as the
code treats them as opaque capabilities.
-/

namespace PDFTool

/-! ## Page-group planner (`get_page_groupings`, pdf_extractor.py:28-76) -/

/-- The spread-mode loop of `get_page_groupings` (pdf_extractor.py:53-76):
`current` starts at `start_page`; while `current <= end_page`, page 1 is
emitted solo, an even page pairs with the following odd page when that page is
still in range, and any other page is emitted solo. -/
def spreadGroupings (current end_page : Nat) : List (List Nat) :=
  if current ≤ end_page then
    if current = 1 then
      [1] :: spreadGroupings (current + 1) end_page
    else if current % 2 = 0 then
      if current + 1 ≤ end_page then
        [current, current + 1] :: spreadGroupings (current + 2) end_page
      else
        [current] :: spreadGroupings (current + 1) end_page
    else
      [current] :: spreadGroupings (current + 1) end_page
  else []
termination_by end_page + 1 - current

/-- `get_page_groupings` (pdf_extractor.py:28-76).  Normal mode returns one
singleton per page of `range(start_page, end_page + 1)`; spread mode runs the
walk above. -/
def get_page_groupings (start_page end_page : Nat) (spread_mode : Bool) :
    List (List Nat) :=
  if spread_mode then spreadGroupings start_page end_page
  else (List.range' start_page (end_page + 1 - start_page)).map (fun p => [p])

/-- The deterministic walk exactly as the spec words it (§4.1): maintain
`cursor = start`; while `cursor <= end`: if `cursor == 1`, emit `(1,)`,
advance 1; else if `cursor` is even and `cursor + 1 <= end`, emit
`(cursor, cursor+1)`, advance 2; else emit `(cursor,)`, advance 1. -/
def specSpreadWalk (cursor end_page : Nat) : List (List Nat) :=
  if cursor ≤ end_page then
    if cursor = 1 then
      [1] :: specSpreadWalk (cursor + 1) end_page
    else if cursor % 2 = 0 ∧ cursor + 1 ≤ end_page then
      [cursor, cursor + 1] :: specSpreadWalk (cursor + 2) end_page
    else
      [cursor] :: specSpreadWalk (cursor + 1) end_page
  else []
termination_by end_page + 1 - cursor

lemma spreadGroupings_eq_specSpreadWalk (current end_page : Nat) :
    spreadGroupings current end_page = specSpreadWalk current end_page := by
  induction current, end_page using spreadGroupings.induct with
  | case1 e hle ih =>
    rw [spreadGroupings, specSpreadWalk]
    simp [hle, ih]
  | case2 c e hle heq heven hpair ih =>
    rw [spreadGroupings, specSpreadWalk]
    simp [hle, heq, heven, hpair, ih]
  | case3 c e hle heq heven hpair ih =>
    rw [spreadGroupings, specSpreadWalk]
    simp [hle, heq, heven, hpair, ih]
  | case4 c e hle heq hodd ih =>
    rw [spreadGroupings, specSpreadWalk]
    simp [hle, heq, hodd, ih]
  | case5 c e hle =>
    rw [spreadGroupings, specSpreadWalk]
    simp [hle]

lemma flatten_map_singleton (l : List Nat) :
    (l.map (fun p => [p])).flatten = l := by
  induction l with
  | nil => rfl
  | cons a t ih => simp [ih]

/-- Flattening the spread walk recovers exactly the contiguous page range. -/
lemma flatten_spreadGroupings (current end_page : Nat) (h1 : 1 ≤ current) :
    (spreadGroupings current end_page).flatten =
      List.range' current (end_page + 1 - current) := by
  induction current, end_page using spreadGroupings.induct with
  | case1 e hle ih =>
    rw [spreadGroupings]
    simp only [hle, if_true]
    have hcount : e + 1 - 1 = (e + 1 - (1 + 1)) + 1 := by omega
    rw [hcount, List.range'_succ]
    simp [ih (by omega)]
  | case2 c e hle heq heven hpair ih =>
    rw [spreadGroupings]
    simp only [hle, if_true, heq, if_false, heven, if_true, hpair]
    have hcount : e + 1 - c = ((e + 1 - (c + 2)) + 1) + 1 := by omega
    rw [hcount, List.range'_succ, List.range'_succ]
    simp [ih (by omega)]
  | case3 c e hle heq heven hpair ih =>
    rw [spreadGroupings]
    simp only [hle, if_true, heq, if_false, heven, if_true, hpair]
    have hcount : e + 1 - c = (e + 1 - (c + 1)) + 1 := by omega
    rw [hcount, List.range'_succ]
    simp [ih (by omega)]
  | case4 c e hle heq hodd ih =>
    rw [spreadGroupings]
    simp only [hle, if_true, heq, if_false, hodd]
    have hcount : e + 1 - c = (e + 1 - (c + 1)) + 1 := by omega
    rw [hcount, List.range'_succ]
    simp [ih (by omega)]
  | case5 c e hle =>
    rw [spreadGroupings]
    have hcount : e + 1 - c = 0 := by omega
    simp [hle, hcount]

/-- The flattened planner output is the contiguous range, in both modes. -/
lemma flatten_get_page_groupings (s e : Nat) (m : Bool) (h1 : 1 ≤ s) :
    (get_page_groupings s e m).flatten = List.range' s (e + 1 - s) := by
  cases m with
  | false => simp [get_page_groupings, flatten_map_singleton]
  | true => simp [get_page_groupings, flatten_spreadGroupings _ _ h1]

/-! ## Decimal rendering (Python `str(int)` as used in the f-strings) -/

/-- Decimal digit characters of `n`, most significant first, as Python's
`str` renders a non-negative integer. -/
def natDigits (n : Nat) : List Char :=
  if n < 10 then [Char.ofNat (48 + n)]
  else natDigits (n / 10) ++ [Char.ofNat (48 + n % 10)]
termination_by n
decreasing_by exact Nat.div_lt_self (by omega) (by omega)

/-- Python `str(n)` for a natural number. -/
def natStr (n : Nat) : String := ⟨natDigits n⟩

/-- Python `sep.join(parts)`. -/
def join_sep (sep : String) : List String → String
  | [] => ""
  | [x] => x
  | x :: xs => x ++ sep ++ join_sep sep xs

lemma natDigits_lt (n : Nat) (h : n < 10) :
    natDigits n = [Char.ofNat (48 + n)] := by
  rw [natDigits, if_pos h]

lemma natDigits_ge (n : Nat) (h : ¬ n < 10) :
    natDigits n = natDigits (n / 10) ++ [Char.ofNat (48 + n % 10)] := by
  rw [natDigits, if_neg h]

lemma char_ofNat_digit_toNat (d : Nat) (h : d < 10) :
    (Char.ofNat (48 + d)).toNat = 48 + d := by
  have h10 : ∀ d : Fin 10, (Char.ofNat (48 + d.1)).toNat = 48 + d.1 := by decide
  exact h10 ⟨d, h⟩

lemma char_ofNat_digit_isDigit (d : Nat) (h : d < 10) :
    (Char.ofNat (48 + d)).isDigit = true := by
  have h10 : ∀ d : Fin 10, (Char.ofNat (48 + d.1)).isDigit = true := by decide
  exact h10 ⟨d, h⟩

lemma natDigits_ne_nil (n : Nat) : natDigits n ≠ [] := by
  by_cases h : n < 10
  · rw [natDigits_lt n h]; simp
  · rw [natDigits_ge n h]; simp

lemma natDigits_isDigit (n : Nat) : ∀ c ∈ natDigits n, c.isDigit = true := by
  induction n using natDigits.induct with
  | case1 n h =>
    intro c hc
    rw [natDigits_lt n h] at hc
    simp only [List.mem_singleton] at hc
    subst hc
    exact char_ofNat_digit_isDigit n h
  | case2 n h ih =>
    intro c hc
    rw [natDigits_ge n h] at hc
    rcases List.mem_append.mp hc with h1 | h1
    · exact ih c h1
    · simp only [List.mem_singleton] at h1
      subst h1
      exact char_ofNat_digit_isDigit _ (Nat.mod_lt _ (by omega))

lemma natDigits_inj : ∀ a b : Nat, natDigits a = natDigits b → a = b := by
  intro a
  induction a using natDigits.induct with
  | case1 a ha =>
    intro b hab
    by_cases hb : b < 10
    · rw [natDigits_lt a ha, natDigits_lt b hb] at hab
      simp only [List.cons.injEq, and_true] at hab
      have := congrArg Char.toNat hab
      rw [char_ofNat_digit_toNat a ha, char_ofNat_digit_toNat b hb] at this
      omega
    · rw [natDigits_lt a ha, natDigits_ge b hb] at hab
      have hlen := congrArg List.length hab
      have hne := natDigits_ne_nil (b / 10)
      cases hd : natDigits (b / 10) with
      | nil => exact absurd hd hne
      | cons x xs => rw [hd] at hlen; simp at hlen
  | case2 a ha ih =>
    intro b hab
    by_cases hb : b < 10
    · rw [natDigits_ge a ha, natDigits_lt b hb] at hab
      have hlen := congrArg List.length hab
      have hne := natDigits_ne_nil (a / 10)
      cases hd : natDigits (a / 10) with
      | nil => exact absurd hd hne
      | cons x xs => rw [hd] at hlen; simp at hlen
    · rw [natDigits_ge a ha, natDigits_ge b hb] at hab
      obtain ⟨hpre, hlast⟩ := List.append_inj' hab (by simp)
      have hdiv : a / 10 = b / 10 := ih _ hpre
      simp only [List.cons.injEq, and_true] at hlast
      have := congrArg Char.toNat hlast
      rw [char_ofNat_digit_toNat _ (Nat.mod_lt _ (by omega)),
        char_ofNat_digit_toNat _ (Nat.mod_lt _ (by omega))] at this
      omega

/-! ## Image extraction (`extract_images_from_pages`, pdf_extractor.py:140-259)

The document's embedded bitmaps (`fitz_page.get_images(full=True)` plus the
RGB conversion) and the vector-region detector
(`get_drawings` + `render_drawings`, the external collaborator) are
parameters: `rasters` gives each 0-based page's discovered bitmaps in
document order, `detector` gives each page's detected vector regions or the
exception `render_drawings` raised. -/

/-- An embedded bitmap after RGB conversion (`pix_rgb`). -/
structure RasterImg where
  width : Nat
  height : Nat
deriving DecidableEq

/-- One rendered vector region returned by `render_drawings`. -/
structure VectorImg where
  width : Nat
  height : Nat
deriving DecidableEq

/-- The `Image` record (models.py:6-16). -/
structure Image where
  image_id : String
  page_id : String
  index : Nat
  image_path : String
  chart_path : String
  width : Nat
  height : Nat
  image_type : String
deriving DecidableEq

/-- The raster loop of `extract_images_from_pages` (pdf_extractor.py:168-201):
one `Image` per discovered bitmap, ids `img_<page_id>_r<index>`, counter
incremented per image. -/
def rasterImages (page_id : String) (image_index : Nat) :
    List RasterImg → List Image
  | [] => []
  | r :: rest =>
    { image_id := "img_" ++ page_id ++ "_r" ++ natStr image_index,
      page_id := page_id,
      index := image_index,
      image_path := "images/" ++ ("img_" ++ page_id ++ "_r" ++ natStr image_index) ++ ".png",
      chart_path := "images/" ++ ("img_" ++ page_id ++ "_r" ++ natStr image_index) ++ "_chart.png",
      width := r.width,
      height := r.height,
      image_type := "raster" } :: rasterImages page_id (image_index + 1) rest

/-- The vector loop of `extract_images_from_pages` (pdf_extractor.py:227-257):
ids `img_<page_id>_v<index>`, continuing the same counter. -/
def vectorImages (page_id : String) (image_index : Nat) :
    List VectorImg → List Image
  | [] => []
  | v :: rest =>
    { image_id := "img_" ++ page_id ++ "_v" ++ natStr image_index,
      page_id := page_id,
      index := image_index,
      image_path := "images/" ++ ("img_" ++ page_id ++ "_v" ++ natStr image_index) ++ ".png",
      chart_path := "images/" ++ ("img_" ++ page_id ++ "_v" ++ natStr image_index) ++ "_chart.png",
      width := v.width,
      height := v.height,
      image_type := "vector" } :: vectorImages page_id (image_index + 1) rest

/-- The `try/except` around `render_drawings` (pdf_extractor.py:211-225): a
detector failure degrades to `vector_images = []`. -/
def vectorResult (detector : Nat → Except String (List VectorImg))
    (page_idx : Nat) : List VectorImg :=
  match detector page_idx with
  | .ok v => v
  | .error _ => []

/-- One iteration of the page loop (pdf_extractor.py:163-257): the page's
raster images first, then its vector images, sharing the counter. -/
def pageImages (rasters : Nat → List RasterImg)
    (detector : Nat → Except String (List VectorImg))
    (page_id : String) (page_idx : Nat) (image_index : Nat) : List Image :=
  rasterImages page_id image_index (rasters page_idx) ++
    vectorImages page_id (image_index + (rasters page_idx).length)
      (vectorResult detector page_idx)

/-- Number of images one page contributes to the shared counter. -/
def pageImageCount (rasters : Nat → List RasterImg)
    (detector : Nat → Except String (List VectorImg)) (page_idx : Nat) : Nat :=
  (rasters page_idx).length + (vectorResult detector page_idx).length

/-- The page loop of `extract_images_from_pages`, accumulating the shared
`image_index` across the pages of the unit. -/
def extractImagesAux (rasters : Nat → List RasterImg)
    (detector : Nat → Except String (List VectorImg)) (page_id : String) :
    List Nat → Nat → List Image
  | [], _ => []
  | p :: rest, image_index =>
    pageImages rasters detector page_id p image_index ++
      extractImagesAux rasters detector page_id rest
        (image_index + pageImageCount rasters detector p)

/-- `extract_images_from_pages` (pdf_extractor.py:140-259): the unit's images
in processing order, counter starting at 0. -/
def extract_images_from_pages (rasters : Nat → List RasterImg)
    (detector : Nat → Except String (List VectorImg))
    (page_indices : List Nat) (page_id : String) : List Image :=
  extractImagesAux rasters detector page_id page_indices 0

lemma rasterImages_map_index (page_id : String) (i : Nat) (rs : List RasterImg) :
    (rasterImages page_id i rs).map Image.index = List.range' i rs.length := by
  induction rs generalizing i with
  | nil => rfl
  | cons r rest ih => simp [rasterImages, List.range'_succ, ih]

lemma vectorImages_map_index (page_id : String) (i : Nat) (vs : List VectorImg) :
    (vectorImages page_id i vs).map Image.index = List.range' i vs.length := by
  induction vs generalizing i with
  | nil => rfl
  | cons v rest ih => simp [vectorImages, List.range'_succ, ih]

lemma pageImages_map_index (rasters : Nat → List RasterImg)
    (detector : Nat → Except String (List VectorImg))
    (page_id : String) (p i : Nat) :
    (pageImages rasters detector page_id p i).map Image.index =
      List.range' i (pageImageCount rasters detector p) := by
  simp only [pageImages, List.map_append, rasterImages_map_index,
    vectorImages_map_index, pageImageCount]
  rw [List.range'_append_1, Nat.add_comm]

lemma extractImagesAux_map_index (rasters : Nat → List RasterImg)
    (detector : Nat → Except String (List VectorImg)) (page_id : String)
    (pis : List Nat) (i : Nat) :
    (extractImagesAux rasters detector page_id pis i).map Image.index =
      List.range' i ((extractImagesAux rasters detector page_id pis i).length) := by
  induction pis generalizing i with
  | nil => rfl
  | cons p rest ih =>
    have hlen : (pageImages rasters detector page_id p i).length =
        pageImageCount rasters detector p := by
      have h := congrArg List.length (pageImages_map_index rasters detector page_id p i)
      simpa using h
    simp only [extractImagesAux, List.map_append, List.length_append,
      pageImages_map_index, ih, hlen]
    rw [List.range'_append_1, Nat.add_comm]

/-- The indices of a unit's images are exactly `0, 1, 2, …` in order. -/
lemma extract_images_map_index (rasters : Nat → List RasterImg)
    (detector : Nat → Except String (List VectorImg))
    (page_indices : List Nat) (page_id : String) :
    (extract_images_from_pages rasters detector page_indices page_id).map
        Image.index =
      List.range
        (extract_images_from_pages rasters detector page_indices page_id).length := by
  rw [List.range_eq_range']
  exact extractImagesAux_map_index rasters detector page_id page_indices 0

lemma mem_rasterImages (page_id : String) (i : Nat) (rs : List RasterImg) :
    ∀ img ∈ rasterImages page_id i rs,
      img.image_type = "raster" ∧ i ≤ img.index ∧ img.index < i + rs.length ∧
        img.image_id = "img_" ++ page_id ++ "_r" ++ natStr img.index := by
  induction rs generalizing i with
  | nil => intro img h; simp [rasterImages] at h
  | cons r rest ih =>
    intro img h
    rw [rasterImages] at h
    rcases List.mem_cons.mp h with h1 | h1
    · subst h1; simp
    · obtain ⟨ht, hlb, hub, hid⟩ := ih (i + 1) img h1
      exact ⟨ht, by omega, by simp [List.length_cons]; omega, hid⟩

lemma mem_vectorImages (page_id : String) (i : Nat) (vs : List VectorImg) :
    ∀ img ∈ vectorImages page_id i vs,
      img.image_type = "vector" ∧ i ≤ img.index ∧ img.index < i + vs.length ∧
        img.image_id = "img_" ++ page_id ++ "_v" ++ natStr img.index := by
  induction vs generalizing i with
  | nil => intro img h; simp [vectorImages] at h
  | cons v rest ih =>
    intro img h
    rw [vectorImages] at h
    rcases List.mem_cons.mp h with h1 | h1
    · subst h1; simp
    · obtain ⟨ht, hlb, hub, hid⟩ := ih (i + 1) img h1
      exact ⟨ht, by omega, by simp [List.length_cons]; omega, hid⟩

/-- Within the images of one physical page, every raster image is numbered
before every vector image. -/
lemma pageImages_raster_before_vector (rasters : Nat → List RasterImg)
    (detector : Nat → Except String (List VectorImg))
    (page_id : String) (p i : Nat) :
    ∀ r ∈ pageImages rasters detector page_id p i,
      ∀ v ∈ pageImages rasters detector page_id p i,
        r.image_type = "raster" → v.image_type = "vector" →
          r.index < v.index := by
  intro r hr v hv hrt hvt
  rw [pageImages] at hr hv
  rcases List.mem_append.mp hr with h1 | h1
  · rcases List.mem_append.mp hv with h2 | h2
    · have := (mem_rasterImages _ _ _ v h2).1
      rw [hvt] at this
      simp at this
    · have hub := (mem_rasterImages _ _ _ r h1).2.2.1
      have hlb := (mem_vectorImages _ _ _ v h2).2.1
      omega
  · have := (mem_vectorImages _ _ _ r h1).1
    rw [hrt] at this
    simp at this

/-- Every image id produced for a unit has the shape
`img_<page_id>_r<index>` or `img_<page_id>_v<index>` built from the image's
own `index`. -/
def IdForm (page_id : String) (img : Image) : Prop :=
  img.image_id = "img_" ++ page_id ++ "_r" ++ natStr img.index ∨
    img.image_id = "img_" ++ page_id ++ "_v" ++ natStr img.index

lemma mem_extractImagesAux_idForm (rasters : Nat → List RasterImg)
    (detector : Nat → Except String (List VectorImg)) (page_id : String)
    (pis : List Nat) (i : Nat) :
    ∀ img ∈ extractImagesAux rasters detector page_id pis i,
      IdForm page_id img := by
  induction pis generalizing i with
  | nil => intro img h; simp [extractImagesAux] at h
  | cons p rest ih =>
    intro img h
    rw [extractImagesAux] at h
    rcases List.mem_append.mp h with h1 | h1
    · rw [pageImages] at h1
      rcases List.mem_append.mp h1 with h2 | h2
      · exact Or.inl (mem_rasterImages _ _ _ img h2).2.2.2
      · exact Or.inr (mem_vectorImages _ _ _ img h2).2.2.2
    · exact ih _ img h1

/-! ## Page rendering and stitching (`stitch_page_images`,
pdf_extractor.py:79-122)

A pixmap is a pixel grid carrying its own bounding box
`(x, y, x + width, y + height)` (pymupdf `Pixmap.irect`); pixels are
addressed by absolute coordinates, as MuPDF stores them.  The colour of a
pixel is an abstract natural number (255 is `clear_with(value=255)`'s
white).  `render` stands for `doc[idx].get_pixmap(matrix=FITZ_MAT)`. -/

/-- An integer rectangle `IRect(x0, y0, x1, y1)`. -/
structure IRect where
  x0 : Int
  y0 : Int
  x1 : Int
  y1 : Int

structure Pixmap where
  x : Int
  y : Int
  width : Nat
  height : Nat
  pix : Int → Int → Nat

/-- `stitched.copy(pix, rect)` — pymupdf `Pixmap.copy`, i.e. MuPDF
`fz_copy_pixmap_rect`: the rectangle is intersected with the destination's
bounding box *and with the source's own bounding box*, and the pixels inside
the intersection are copied at identical absolute positions.  No translation
takes place; relocating a source requires `Pixmap.set_origin`, which this
program never calls. -/
def Pixmap.copyInto (dst src : Pixmap) (r : IRect) : Pixmap :=
  { dst with
    pix := fun px py =>
      if r.x0 ≤ px ∧ px < r.x1 ∧ r.y0 ≤ py ∧ py < r.y1 ∧
          dst.x ≤ px ∧ px < dst.x + dst.width ∧
          dst.y ≤ py ∧ py < dst.y + dst.height ∧
          src.x ≤ px ∧ px < src.x + src.width ∧
          src.y ≤ py ∧ py < src.y + src.height then
        src.pix px py
      else dst.pix px py }

/-- The compositing loop of `stitch_page_images` (pdf_extractor.py:108-113):
each pixmap is copied with the rectangle
`IRect(x_offset, y_offset, x_offset + width, y_offset + height)` at the
running `x_offset`, with `y_offset = (max_height - height) // 2`. -/
def stitchLoop (max_height : Nat) :
    List Pixmap → Pixmap → Nat → Pixmap
  | [], canvas, _ => canvas
  | pix :: rest, canvas, x_offset =>
    stitchLoop max_height rest
      (canvas.copyInto pix
        { x0 := (x_offset : Int),
          y0 := (((max_height - pix.height) / 2 : Nat) : Int),
          x1 := ((x_offset + pix.width : Nat) : Int),
          y1 := (((max_height - pix.height) / 2 + pix.height : Nat) : Int) })
      (x_offset + pix.width)

/-- `stitch_page_images` (pdf_extractor.py:79-122).  A single page is
returned as rendered; for several pages a white canvas with bounding box
`IRect(0, 0, Σ widths, max heights)` is created and each member is copied at
the running offset.  The empty unit is `none` (Python's `max(())` raises
there). -/
def stitch_page_images (render : Nat → Pixmap) :
    List Nat → Option Pixmap
  | [] => none
  | [p] => some (render p)
  | ps =>
    let pixmaps := ps.map render
    let total_width := (pixmaps.map Pixmap.width).sum
    let max_height := (pixmaps.map Pixmap.height).foldl max 0
    let stitched : Pixmap :=
      { x := 0, y := 0, width := total_width, height := max_height,
        pix := fun _ _ => 255 }
    some (stitchLoop max_height pixmaps stitched 0)

/-! ## The orchestrator (`extract_pages_from_pdf`, pdf_extractor.py:262-364)

The run is modelled as the ordered list of filesystem effects it performs
(directory creation, the PDF read, each PNG write) together with its result:
the `PDFExtract` or the `ValueError` message.  The document handle obtained
from `pymupdf.open` is the `Doc` parameter; `timestamp` stands for
`datetime.now().isoformat()`. -/

structure Doc where
  total_pages : Nat
  render : Nat → Pixmap
  text : Nat → String
  rasters : Nat → List RasterImg

/-- The `Page` record (models.py:19-34). -/
structure Page where
  page_id : String
  page_number : Nat
  page_image_path : String
  text : String
  images : List Image
deriving DecidableEq

/-- The `Metadata` record (models.py:37-51). -/
structure Metadata where
  filename : String
  total_pages : Nat
  extracted_pages : List Nat
  extraction_timestamp : String
  start_page : Nat
  end_page : Nat
  spread_mode : Bool
deriving DecidableEq

/-- The `PDFExtract` record (models.py:54-58): its first field is named
`pdf_metadata`. -/
structure PDFExtract where
  pdf_metadata : Metadata
  pages : List Page
deriving DecidableEq

inductive FsEvent where
  | mkDir (path : String)
  | readFile (path : String)
  | writeFile (path : String)
deriving DecidableEq

/-- Unit id: `f"p{group[0]}"` for a single page, else
`f"p{'_'.join(str(p) for p in group)}"` (pdf_extractor.py:313-317). -/
def page_id_of (g : List Nat) : String :=
  if g.length = 1 then "p" ++ natStr g.headI
  else "p" ++ join_sep "_" (g.map natStr)

/-- Page image file name (pdf_extractor.py:326-329). -/
def pageFileName (g : List Nat) : String :=
  if g.length = 1 then "page_" ++ natStr g.headI ++ ".png"
  else "page_" ++ join_sep "_" (g.map natStr) ++ ".png"

/-- `os.path.basename` for a POSIX path. -/
def basename (p : String) : String := (p.splitOn "/").getLastD p

/-- `concatenate_page_text` (pdf_extractor.py:125-137). -/
def concatenate_page_text (text : Nat → String) (page_indices : List Nat) :
    String :=
  join_sep "\n\n" (page_indices.map text)

/-- One iteration of the grouping loop (pdf_extractor.py:311-350), producing
the `Page` record of one unit. -/
def buildPage (doc : Doc) (detector : Nat → Except String (List VectorImg))
    (g : List Nat) : Page :=
  let page_id := page_id_of g
  let page_indices := g.map (fun p => p - 1)
  { page_id := page_id,
    page_number := g.headI,
    page_image_path := "pages/" ++ pageFileName g,
    text := concatenate_page_text doc.text page_indices,
    images := extract_images_from_pages doc.rasters detector page_indices page_id }

/-- The two `write_file` calls per extracted image (pdf_extractor.py:174-183,
234-243). -/
def imageEvents (output_dir : String) (imgs : List Image) : List FsEvent :=
  (imgs.map (fun im =>
    [FsEvent.writeFile (output_dir ++ "/" ++ im.image_path),
     FsEvent.writeFile (output_dir ++ "/" ++ im.chart_path)])).flatten

/-- Filesystem writes of one unit: the page PNG, then each image's PNG and
chart PNG. -/
def pageEvents (output_dir : String) (doc : Doc)
    (detector : Nat → Except String (List VectorImg)) (g : List Nat) :
    List FsEvent :=
  FsEvent.writeFile (output_dir ++ "/pages/" ++ pageFileName g) ::
    imageEvents output_dir
      (extract_images_from_pages doc.rasters detector (g.map (fun p => p - 1))
        (page_id_of g))

/-- Effects performed before the range check (pdf_extractor.py:279-292):
three `os.makedirs` calls and the PDF read. -/
def preEvents (output_dir pdf_path : String) : List FsEvent :=
  [.mkDir output_dir, .mkDir (output_dir ++ "/pages"),
   .mkDir (output_dir ++ "/images"), .readFile pdf_path]

/-- `end_page = min(end_page, total_pages) if end_page > 0 else total_pages`
(pdf_extractor.py:296). -/
def resolvedEnd (end_page : Int) (total : Nat) : Int :=
  if end_page > 0 then min end_page (total : Int) else (total : Int)

/-- `start_page = 1 if start_page == 0 else start_page`
(pdf_extractor.py:297). -/
def resolvedStart (start_page : Int) : Int :=
  if start_page = 0 then 1 else start_page

/-- `extract_pages_from_pdf` (pdf_extractor.py:262-364): directory creation
and the PDF read happen first, then the range is resolved and validated, then
each unit is rendered, its text concatenated and its images extracted, and
the metadata is assembled. -/
def extract_pages_from_pdf (doc : Doc)
    (detector : Nat → Except String (List VectorImg))
    (output_dir pdf_path timestamp : String) (start_page end_page : Int)
    (spread_mode : Bool) : List FsEvent × Except String PDFExtract :=
  let pre := preEvents output_dir pdf_path
  let total := doc.total_pages
  let e := resolvedEnd end_page total
  let s := resolvedStart start_page
  if s < 1 ∨ s > (total : Int) then
    (pre, .error "start page out of range")
  else if e < s then
    (pre, .error "end page less than start page")
  else
    let groupings := get_page_groupings s.toNat e.toNat spread_mode
    (pre ++ (groupings.map (pageEvents output_dir doc detector)).flatten,
     .ok { pdf_metadata :=
            { filename := basename pdf_path,
              total_pages := total,
              extracted_pages := groupings.flatten,
              extraction_timestamp := timestamp,
              start_page := s.toNat,
              end_page := e.toNat,
              spread_mode := spread_mode },
           pages := groupings.map (buildPage doc detector) })

/-! ## Serialization (`PDFExtract.model_dump_json`, models.py:60-71)

Pydantic serializes a `BaseModel` as a JSON object whose keys are the
declared field names in declaration order; this is modelled by `toJson`
functions producing a JSON tree. -/

inductive JsonVal where
  | str (s : String)
  | num (n : Int)
  | bool (b : Bool)
  | arr (elems : List JsonVal)
  | obj (fields : List (String × JsonVal))

/-- JSON object for an `Image` (models.py:6-16). -/
def Image.toJson (i : Image) : JsonVal :=
  .obj [("image_id", .str i.image_id), ("page_id", .str i.page_id),
    ("index", .num i.index), ("image_path", .str i.image_path),
    ("chart_path", .str i.chart_path), ("width", .num i.width),
    ("height", .num i.height), ("image_type", .str i.image_type)]

/-- JSON object for a `Page` (models.py:19-34). -/
def Page.toJson (p : Page) : JsonVal :=
  .obj [("page_id", .str p.page_id), ("page_number", .num p.page_number),
    ("page_image_path", .str p.page_image_path), ("text", .str p.text),
    ("images", .arr (p.images.map Image.toJson))]

/-- JSON object for `Metadata` (models.py:37-51). -/
def Metadata.toJson (m : Metadata) : JsonVal :=
  .obj [("filename", .str m.filename), ("total_pages", .num m.total_pages),
    ("extracted_pages", .arr (m.extracted_pages.map (fun n => .num n))),
    ("extraction_timestamp", .str m.extraction_timestamp),
    ("start_page", .num m.start_page), ("end_page", .num m.end_page),
    ("spread_mode", .bool m.spread_mode)]

/-- JSON object for the top-level `PDFExtract` (models.py:54-58): pydantic
uses the declared field name `pdf_metadata`. -/
def PDFExtract.toJson (e : PDFExtract) : JsonVal :=
  .obj [("pdf_metadata", e.pdf_metadata.toJson),
    ("pages", .arr (e.pages.map Page.toJson))]

/-- The key list of a serialized JSON object. -/
def JsonVal.objKeys : JsonVal → List String
  | .obj fields => fields.map Prod.fst
  | _ => []

/-- Cancellation of a maximal digit prefix: if two character lists each split
as (digits) ++ (tail whose head is not a digit), equality of the
concatenations forces equality of the parts. -/
lemma digit_prefix_cancel :
    ∀ (d1 d2 t1 t2 : List Char),
      (∀ c ∈ d1, c.isDigit = true) → (∀ c ∈ d2, c.isDigit = true) →
      (∀ c, t1.head? = some c → c.isDigit = false) →
      (∀ c, t2.head? = some c → c.isDigit = false) →
      d1 ++ t1 = d2 ++ t2 → d1 = d2 ∧ t1 = t2 := by
  intro d1
  induction d1 with
  | nil =>
    intro d2 t1 t2 _ hd2 ht1 _ heq
    cases d2 with
    | nil => exact ⟨rfl, heq⟩
    | cons c cs =>
      simp only [List.nil_append, List.cons_append] at heq
      have hc : t1.head? = some c := by rw [heq]; rfl
      have := ht1 c hc
      have := hd2 c (List.mem_cons_self c cs)
      simp_all
  | cons c1 cs1 ih =>
    intro d2 t1 t2 hd1 hd2 ht1 ht2 heq
    cases d2 with
    | nil =>
      simp only [List.cons_append, List.nil_append] at heq
      have hc : t2.head? = some c1 := by rw [← heq]; rfl
      have := ht2 c1 hc
      have := hd1 c1 (List.mem_cons_self c1 cs1)
      simp_all
    | cons c2 cs2 =>
      simp only [List.cons_append, List.cons.injEq] at heq
      obtain ⟨hc, hrest⟩ := heq
      obtain ⟨h1, h2⟩ := ih cs2 t1 t2
        (fun c hc => hd1 c (List.mem_cons_of_mem _ hc))
        (fun c hc => hd2 c (List.mem_cons_of_mem _ hc)) ht1 ht2 hrest
      exact ⟨by rw [hc, h1], h2⟩

/-! ## Shape of planner groups and injectivity of image ids -/

/-- Groups emitted by the planner are singletons or even/odd pairs, each
determined by their first page. -/
def GoodGroup (g : List Nat) : Prop :=
  g = [g.headI] ∨ g = [g.headI, g.headI + 1]

lemma goodGroup_headI_mem (g : List Nat) (h : GoodGroup g) : g.headI ∈ g := by
  rcases h with h | h
  · rw [h]; simp
  · rw [h]; simp

lemma spreadGroupings_goodGroup (c e : Nat) :
    ∀ g ∈ spreadGroupings c e, GoodGroup g := by
  induction c, e using spreadGroupings.induct with
  | case1 e hle ih =>
    intro g hg
    rw [spreadGroupings, if_pos hle, if_pos rfl] at hg
    rcases List.mem_cons.mp hg with rfl | hg'
    · left; rfl
    · exact ih g hg'
  | case2 c e hle heq heven hpair ih =>
    intro g hg
    rw [spreadGroupings, if_pos hle, if_neg heq, if_pos heven, if_pos hpair] at hg
    rcases List.mem_cons.mp hg with rfl | hg'
    · right; rfl
    · exact ih g hg'
  | case3 c e hle heq heven hpair ih =>
    intro g hg
    rw [spreadGroupings, if_pos hle, if_neg heq, if_pos heven, if_neg hpair] at hg
    rcases List.mem_cons.mp hg with rfl | hg'
    · left; rfl
    · exact ih g hg'
  | case4 c e hle heq hodd ih =>
    intro g hg
    rw [spreadGroupings, if_pos hle, if_neg heq, if_neg hodd] at hg
    rcases List.mem_cons.mp hg with rfl | hg'
    · left; rfl
    · exact ih g hg'
  | case5 c e hle =>
    intro g hg
    rw [spreadGroupings, if_neg hle] at hg
    simp at hg

lemma spreadGroupings_mem_lb (c e : Nat) :
    ∀ g ∈ spreadGroupings c e, ∀ x ∈ g, c ≤ x := by
  induction c, e using spreadGroupings.induct with
  | case1 e hle ih =>
    intro g hg x hx
    rw [spreadGroupings, if_pos hle, if_pos rfl] at hg
    rcases List.mem_cons.mp hg with rfl | hg'
    · simp at hx; omega
    · have := ih g hg' x hx; omega
  | case2 c e hle heq heven hpair ih =>
    intro g hg x hx
    rw [spreadGroupings, if_pos hle, if_neg heq, if_pos heven, if_pos hpair] at hg
    rcases List.mem_cons.mp hg with rfl | hg'
    · rcases List.mem_cons.mp hx with rfl | hx'
      · omega
      · simp at hx'; omega
    · have := ih g hg' x hx; omega
  | case3 c e hle heq heven hpair ih =>
    intro g hg x hx
    rw [spreadGroupings, if_pos hle, if_neg heq, if_pos heven, if_neg hpair] at hg
    rcases List.mem_cons.mp hg with rfl | hg'
    · simp at hx; omega
    · have := ih g hg' x hx; omega
  | case4 c e hle heq hodd ih =>
    intro g hg x hx
    rw [spreadGroupings, if_pos hle, if_neg heq, if_neg hodd] at hg
    rcases List.mem_cons.mp hg with rfl | hg'
    · simp at hx; omega
    · have := ih g hg' x hx; omega
  | case5 c e hle =>
    intro g hg
    rw [spreadGroupings, if_neg hle] at hg
    simp at hg

lemma spreadGroupings_pairwise_head (c e : Nat) :
    (spreadGroupings c e).Pairwise (fun g1 g2 => g1.headI < g2.headI) := by
  induction c, e using spreadGroupings.induct with
  | case1 e hle ih =>
    rw [spreadGroupings, if_pos hle, if_pos rfl]
    refine List.Pairwise.cons ?_ ih
    intro g hg
    have hgood := spreadGroupings_goodGroup _ _ g hg
    have hlb := spreadGroupings_mem_lb _ _ g hg g.headI (goodGroup_headI_mem g hgood)
    show (1:Nat) < g.headI
    omega
  | case2 c e hle heq heven hpair ih =>
    rw [spreadGroupings, if_pos hle, if_neg heq, if_pos heven, if_pos hpair]
    refine List.Pairwise.cons ?_ ih
    intro g hg
    have hgood := spreadGroupings_goodGroup _ _ g hg
    have hlb := spreadGroupings_mem_lb _ _ g hg g.headI (goodGroup_headI_mem g hgood)
    show c < g.headI
    omega
  | case3 c e hle heq heven hpair ih =>
    rw [spreadGroupings, if_pos hle, if_neg heq, if_pos heven, if_neg hpair]
    refine List.Pairwise.cons ?_ ih
    intro g hg
    have hgood := spreadGroupings_goodGroup _ _ g hg
    have hlb := spreadGroupings_mem_lb _ _ g hg g.headI (goodGroup_headI_mem g hgood)
    show c < g.headI
    omega
  | case4 c e hle heq hodd ih =>
    rw [spreadGroupings, if_pos hle, if_neg heq, if_neg hodd]
    refine List.Pairwise.cons ?_ ih
    intro g hg
    have hgood := spreadGroupings_goodGroup _ _ g hg
    have hlb := spreadGroupings_mem_lb _ _ g hg g.headI (goodGroup_headI_mem g hgood)
    show c < g.headI
    omega
  | case5 c e hle =>
    rw [spreadGroupings, if_neg hle]
    exact List.Pairwise.nil

lemma get_page_groupings_goodGroup (s e : Nat) (m : Bool) :
    ∀ g ∈ get_page_groupings s e m, GoodGroup g := by
  cases m with
  | true => exact spreadGroupings_goodGroup s e
  | false =>
    intro g hg
    simp only [get_page_groupings, Bool.false_eq_true, if_false,
      List.mem_map] at hg
    obtain ⟨p, _, rfl⟩ := hg
    left; rfl

lemma get_page_groupings_pairwise_head (s e : Nat) (m : Bool) :
    (get_page_groupings s e m).Pairwise (fun g1 g2 => g1.headI < g2.headI) := by
  cases m with
  | true => exact spreadGroupings_pairwise_head s e
  | false =>
    simp only [get_page_groupings, Bool.false_eq_true, if_false]
    rw [List.pairwise_map]
    exact (List.pairwise_lt_range' s _ 1).imp (by simp)

lemma page_id_of_singleton (a : Nat) : page_id_of [a] = "p" ++ natStr a := by
  simp [page_id_of]

lemma page_id_of_pair (a b : Nat) :
    page_id_of [a, b] = "p" ++ (natStr a ++ "_" ++ natStr b) := by
  simp [page_id_of, join_sep]

/-- The part of a unit id between the first page number and the `r`/`v` tag:
empty for a singleton unit, `<second page>_` for a pair. -/
def midData : Option Nat → List Char
  | none => []
  | some b => natDigits b ++ ['_']

lemma head_not_digit_of_underscore (l : List Char) :
    ∀ c, ('_' :: l).head? = some c → c.isDigit = false := by
  intro c hc
  simp only [List.head?_cons, Option.some.injEq] at hc
  subst hc
  decide

/-- Core id-shape injectivity: the decimal blocks and the tag character of a
unit-scoped id determine the unit's first page, its optional second page, the
tag and the counter value. -/
lemma tail_decomp_inj (a1 a2 i1 i2 : Nat) (o1 o2 : Option Nat) (c1 c2 : Char)
    (hc1 : c1.isDigit = false) (hc2 : c2.isDigit = false)
    (h : natDigits a1 ++ '_' :: (midData o1 ++ c1 :: natDigits i1) =
         natDigits a2 ++ '_' :: (midData o2 ++ c2 :: natDigits i2)) :
    a1 = a2 ∧ o1 = o2 ∧ c1 = c2 ∧ i1 = i2 := by
  obtain ⟨hd, ht⟩ := digit_prefix_cancel _ _ _ _
    (natDigits_isDigit a1) (natDigits_isDigit a2)
    (head_not_digit_of_underscore _) (head_not_digit_of_underscore _) h
  have ha : a1 = a2 := natDigits_inj _ _ hd
  simp only [List.cons.injEq, true_and] at ht
  cases o1 with
  | none =>
    cases o2 with
    | none =>
      simp only [midData, List.nil_append, List.cons.injEq] at ht
      exact ⟨ha, rfl, ht.1, natDigits_inj _ _ ht.2⟩
    | some b2 =>
      exfalso
      simp only [midData, List.nil_append] at ht
      cases hb : natDigits b2 with
      | nil => exact natDigits_ne_nil b2 hb
      | cons d ds =>
        rw [hb] at ht
        simp only [List.cons_append, List.append_assoc, List.cons.injEq] at ht
        have hdd : d.isDigit = true := natDigits_isDigit b2 d (by rw [hb]; simp)
        rw [← ht.1] at hdd
        rw [hc1] at hdd
        exact Bool.false_ne_true hdd
  | some b1 =>
    cases o2 with
    | none =>
      exfalso
      simp only [midData, List.nil_append] at ht
      cases hb : natDigits b1 with
      | nil => exact natDigits_ne_nil b1 hb
      | cons d ds =>
        rw [hb] at ht
        simp only [List.cons_append, List.append_assoc, List.cons.injEq] at ht
        have hdd : d.isDigit = true := natDigits_isDigit b1 d (by rw [hb]; simp)
        rw [ht.1] at hdd
        rw [hc2] at hdd
        exact Bool.false_ne_true hdd
    | some b2 =>
      simp only [midData, List.append_assoc, List.cons_append,
        List.nil_append] at ht
      obtain ⟨hd', ht'⟩ := digit_prefix_cancel _ _ _ _
        (natDigits_isDigit b1) (natDigits_isDigit b2)
        (head_not_digit_of_underscore _) (head_not_digit_of_underscore _) ht
      have hb : b1 = b2 := natDigits_inj _ _ hd'
      simp only [List.cons.injEq, true_and] at ht'
      exact ⟨ha, by rw [hb], ht'.1, natDigits_inj _ _ ht'.2⟩

lemma natStr_data (n : Nat) : (natStr n).data = natDigits n := rfl

lemma pid_data_singleton (a : Nat) :
    (page_id_of [a]).data = 'p' :: natDigits a := by
  rw [page_id_of_singleton, String.data_append]
  have hp : ("p" : String).data = ['p'] := by decide
  rw [hp, natStr_data]
  rfl

lemma pid_data_pair (a b : Nat) :
    (page_id_of [a, b]).data = 'p' :: (natDigits a ++ '_' :: natDigits b) := by
  rw [page_id_of_pair]
  simp [String.data_append, natStr_data]

/-- Full injectivity of unit image ids over planner-shaped groups: equal id
strings force the same group, the same raster/vector tag and the same
counter value. -/
lemma unit_image_id_inj (g1 g2 : List Nat) (hg1 : GoodGroup g1)
    (hg2 : GoodGroup g2) (t1 t2 : String)
    (ht1 : t1 = "_r" ∨ t1 = "_v") (ht2 : t2 = "_r" ∨ t2 = "_v") (i1 i2 : Nat)
    (heq : "img_" ++ page_id_of g1 ++ t1 ++ natStr i1 =
           "img_" ++ page_id_of g2 ++ t2 ++ natStr i2) :
    g1 = g2 ∧ t1 = t2 ∧ i1 = i2 := by
  obtain ⟨c1, hc1d, hc1nd, hc1t⟩ :
      ∃ c, t1.data = ['_', c] ∧ c.isDigit = false ∧
        (∀ t' c', t'.data = ['_', c'] → c = c' → t1 = t') := by
    rcases ht1 with rfl | rfl
    · exact ⟨'r', by decide, by decide, fun t' c' h' hcc => by
        apply String.ext; rw [h', ← hcc]⟩
    · exact ⟨'v', by decide, by decide, fun t' c' h' hcc => by
        apply String.ext; rw [h', ← hcc]⟩
  obtain ⟨c2, hc2d, hc2nd, _⟩ :
      ∃ c, t2.data = ['_', c] ∧ c.isDigit = false ∧
        (∀ t' c', t'.data = ['_', c'] → c = c' → t2 = t') := by
    rcases ht2 with rfl | rfl
    · exact ⟨'r', by decide, by decide, fun t' c' h' hcc => by
        apply String.ext; rw [h', ← hcc]⟩
    · exact ⟨'v', by decide, by decide, fun t' c' h' hcc => by
        apply String.ext; rw [h', ← hcc]⟩
  have him : ("img_" : String).data = ['i', 'm', 'g', '_'] := by decide
  have hdata := congrArg String.data heq
  simp only [String.data_append, him, hc1d, hc2d, natStr_data] at hdata
  rcases hg1 with h1 | h1 <;> rcases hg2 with h2 | h2
  · have e1 : (page_id_of g1).data = 'p' :: natDigits g1.headI := by
      rw [h1, pid_data_singleton]; simp
    have e2 : (page_id_of g2).data = 'p' :: natDigits g2.headI := by
      rw [h2, pid_data_singleton]; simp
    rw [e1, e2] at hdata
    simp only [List.cons_append, List.append_assoc, List.nil_append,
      List.cons.injEq, true_and] at hdata
    obtain ⟨ha, _, hcc, hii⟩ :=
      tail_decomp_inj g1.headI g2.headI i1 i2 none none c1 c2 hc1nd hc2nd
        (by simpa [midData] using hdata)
    exact ⟨by rw [h1, h2, ha], hc1t t2 c2 hc2d hcc, hii⟩
  · exfalso
    have e1 : (page_id_of g1).data = 'p' :: natDigits g1.headI := by
      rw [h1, pid_data_singleton]; simp
    have e2 : (page_id_of g2).data =
        'p' :: (natDigits g2.headI ++ '_' :: natDigits (g2.headI + 1)) := by
      rw [h2, pid_data_pair]; simp
    rw [e1, e2] at hdata
    simp only [List.cons_append, List.append_assoc, List.nil_append,
      List.cons.injEq, true_and] at hdata
    obtain ⟨_, ho, _, _⟩ :=
      tail_decomp_inj g1.headI g2.headI i1 i2 none (some (g2.headI + 1))
        c1 c2 hc1nd hc2nd (by simpa [midData] using hdata)
    exact Option.noConfusion ho
  · exfalso
    have e1 : (page_id_of g1).data =
        'p' :: (natDigits g1.headI ++ '_' :: natDigits (g1.headI + 1)) := by
      rw [h1, pid_data_pair]; simp
    have e2 : (page_id_of g2).data = 'p' :: natDigits g2.headI := by
      rw [h2, pid_data_singleton]; simp
    rw [e1, e2] at hdata
    simp only [List.cons_append, List.append_assoc, List.nil_append,
      List.cons.injEq, true_and] at hdata
    obtain ⟨_, ho, _, _⟩ :=
      tail_decomp_inj g1.headI g2.headI i1 i2 (some (g1.headI + 1)) none
        c1 c2 hc1nd hc2nd (by simpa [midData] using hdata)
    exact Option.noConfusion ho
  · have e1 : (page_id_of g1).data =
        'p' :: (natDigits g1.headI ++ '_' :: natDigits (g1.headI + 1)) := by
      rw [h1, pid_data_pair]; simp
    have e2 : (page_id_of g2).data =
        'p' :: (natDigits g2.headI ++ '_' :: natDigits (g2.headI + 1)) := by
      rw [h2, pid_data_pair]; simp
    rw [e1, e2] at hdata
    simp only [List.cons_append, List.append_assoc, List.nil_append,
      List.cons.injEq, true_and] at hdata
    obtain ⟨ha, _, hcc, hii⟩ :=
      tail_decomp_inj g1.headI g2.headI i1 i2 (some (g1.headI + 1))
        (some (g2.headI + 1)) c1 c2 hc1nd hc2nd
        (by simpa [midData] using hdata)
    exact ⟨by rw [h1, h2, ha], hc1t t2 c2 hc2d hcc, hii⟩

lemma idForm_cases (pid : String) (img : Image) (h : IdForm pid img) :
    ∃ t, (t = "_r" ∨ t = "_v") ∧
      img.image_id = "img_" ++ pid ++ t ++ natStr img.index := by
  rcases h with h | h
  · exact ⟨"_r", Or.inl rfl, h⟩
  · exact ⟨"_v", Or.inr rfl, h⟩

/-- The image-id list produced for one planner unit. -/
def unitIds (rasters : Nat → List RasterImg)
    (detector : Nat → Except String (List VectorImg)) (g : List Nat) :
    List String :=
  (extract_images_from_pages rasters detector (g.map (fun p => p - 1))
    (page_id_of g)).map Image.image_id

lemma unitIds_nodup (rasters : Nat → List RasterImg)
    (detector : Nat → Except String (List VectorImg)) (g : List Nat)
    (hg : GoodGroup g) : (unitIds rasters detector g).Nodup := by
  have hidx := extract_images_map_index rasters detector
    (g.map (fun p => p - 1)) (page_id_of g)
  have hnd : ((extract_images_from_pages rasters detector
      (g.map (fun p => p - 1)) (page_id_of g)).map Image.index).Nodup := by
    rw [hidx]; exact List.nodup_range _
  refine List.Nodup.map_on ?_ (List.Nodup.of_map Image.index hnd)
  intro x hx y hy hxy
  obtain ⟨tx, htx, hfx⟩ := idForm_cases _ x
    (mem_extractImagesAux_idForm rasters detector _ _ _ x hx)
  obtain ⟨ty, hty, hfy⟩ := idForm_cases _ y
    (mem_extractImagesAux_idForm rasters detector _ _ _ y hy)
  have heq : "img_" ++ page_id_of g ++ tx ++ natStr x.index =
      "img_" ++ page_id_of g ++ ty ++ natStr y.index := by
    rw [← hfx, ← hfy]; exact hxy
  exact List.inj_on_of_nodup_map hnd hx hy
    (unit_image_id_inj g g hg hg tx ty htx hty _ _ heq).2.2

lemma unitIds_disjoint (rasters : Nat → List RasterImg)
    (detector : Nat → Except String (List VectorImg)) (g1 g2 : List Nat)
    (hg1 : GoodGroup g1) (hg2 : GoodGroup g2) (hne : g1 ≠ g2) :
    List.Disjoint (unitIds rasters detector g1) (unitIds rasters detector g2) := by
  intro s hs1 hs2
  simp only [unitIds, List.mem_map] at hs1 hs2
  obtain ⟨x, hx, hex⟩ := hs1
  obtain ⟨y, hy, hey⟩ := hs2
  obtain ⟨tx, htx, hfx⟩ := idForm_cases _ x
    (mem_extractImagesAux_idForm rasters detector _ _ _ x hx)
  obtain ⟨ty, hty, hfy⟩ := idForm_cases _ y
    (mem_extractImagesAux_idForm rasters detector _ _ _ y hy)
  have heq : "img_" ++ page_id_of g1 ++ tx ++ natStr x.index =
      "img_" ++ page_id_of g2 ++ ty ++ natStr y.index := by
    rw [← hfx, ← hfy, hex, hey]
  exact hne (unit_image_id_inj g1 g2 hg1 hg2 tx ty htx hty _ _ heq).1

/-- All image ids across the units of one planner output are distinct. -/
lemma groupings_imageIds_nodup (rasters : Nat → List RasterImg)
    (detector : Nat → Except String (List VectorImg)) (s e : Nat) (m : Bool) :
    ((get_page_groupings s e m).map (unitIds rasters detector)).flatten.Nodup := by
  rw [List.nodup_flatten]
  constructor
  · intro l hl
    obtain ⟨g, hgmem, rfl⟩ := List.mem_map.mp hl
    exact unitIds_nodup rasters detector g
      (get_page_groupings_goodGroup s e m g hgmem)
  · rw [List.pairwise_map]
    refine (get_page_groupings_pairwise_head s e m).imp_of_mem ?_
    intro g1 g2 hm1 hm2 hlt
    refine unitIds_disjoint rasters detector g1 g2
      (get_page_groupings_goodGroup s e m g1 hm1)
      (get_page_groupings_goodGroup s e m g2 hm2) ?_
    intro hEq
    rw [hEq] at hlt
    exact lt_irrefl _ hlt

/-! ## Resolution, validation and run shape of the orchestrator -/

/-- The condition under which `extract_pages_from_pdf` raises `ValueError`
(pdf_extractor.py:299-303), on the resolved bounds. -/
def range_invalid (s e : Int) (total : Nat) : Prop :=
  resolvedStart s < 1 ∨ resolvedStart s > (total : Int) ∨
    resolvedEnd e total < resolvedStart s

instance (s e : Int) (total : Nat) : Decidable (range_invalid s e total) := by
  unfold range_invalid
  infer_instance

lemma extract_pages_success (doc : Doc)
    (detector : Nat → Except String (List VectorImg))
    (output_dir pdf_path timestamp : String) (s e : Int) (m : Bool)
    (h : ¬ range_invalid s e doc.total_pages) :
    extract_pages_from_pdf doc detector output_dir pdf_path timestamp s e m =
      (preEvents output_dir pdf_path ++
        ((get_page_groupings (resolvedStart s).toNat
            (resolvedEnd e doc.total_pages).toNat m).map
          (pageEvents output_dir doc detector)).flatten,
       .ok { pdf_metadata :=
              { filename := basename pdf_path,
                total_pages := doc.total_pages,
                extracted_pages :=
                  (get_page_groupings (resolvedStart s).toNat
                    (resolvedEnd e doc.total_pages).toNat m).flatten,
                extraction_timestamp := timestamp,
                start_page := (resolvedStart s).toNat,
                end_page := (resolvedEnd e doc.total_pages).toNat,
                spread_mode := m },
             pages := (get_page_groupings (resolvedStart s).toNat
                (resolvedEnd e doc.total_pages).toNat m).map
               (buildPage doc detector) }) := by
  unfold range_invalid at h
  push_neg at h
  rw [extract_pages_from_pdf]
  rw [if_neg (by push_neg; exact ⟨h.1, h.2.1⟩), if_neg (by omega)]

lemma extract_pages_failure (doc : Doc)
    (detector : Nat → Except String (List VectorImg))
    (output_dir pdf_path timestamp : String) (s e : Int) (m : Bool)
    (h : range_invalid s e doc.total_pages) :
    (extract_pages_from_pdf doc detector output_dir pdf_path timestamp s e m).1 =
        preEvents output_dir pdf_path ∧
      ∃ msg, (extract_pages_from_pdf doc detector output_dir pdf_path timestamp
        s e m).2 = .error msg := by
  rw [extract_pages_from_pdf]
  unfold range_invalid at h
  by_cases h1 : resolvedStart s < 1 ∨ resolvedStart s > (doc.total_pages : Int)
  · rw [if_pos h1]
    exact ⟨rfl, _, rfl⟩
  · rw [if_neg h1, if_pos (by push_neg at h1; omega)]
    exact ⟨rfl, _, rfl⟩

lemma extract_pages_no_error_of_valid (doc : Doc)
    (detector : Nat → Except String (List VectorImg))
    (output_dir pdf_path timestamp : String) (s e : Int) (m : Bool)
    (h : ¬ range_invalid s e doc.total_pages) :
    ∀ msg, (extract_pages_from_pdf doc detector output_dir pdf_path timestamp
      s e m).2 ≠ .error msg := by
  rw [extract_pages_success doc detector output_dir pdf_path timestamp s e m h]
  intro msg hmsg
  exact Except.noConfusion hmsg

lemma extract_pages_ok_inv (doc : Doc)
    (detector : Nat → Except String (List VectorImg))
    (output_dir pdf_path timestamp : String) (s e : Int) (m : Bool)
    (ex : PDFExtract)
    (h : (extract_pages_from_pdf doc detector output_dir pdf_path timestamp
      s e m).2 = .ok ex) :
    ¬ range_invalid s e doc.total_pages ∧
      ex = { pdf_metadata :=
              { filename := basename pdf_path,
                total_pages := doc.total_pages,
                extracted_pages :=
                  (get_page_groupings (resolvedStart s).toNat
                    (resolvedEnd e doc.total_pages).toNat m).flatten,
                extraction_timestamp := timestamp,
                start_page := (resolvedStart s).toNat,
                end_page := (resolvedEnd e doc.total_pages).toNat,
                spread_mode := m },
             pages := (get_page_groupings (resolvedStart s).toNat
                (resolvedEnd e doc.total_pages).toNat m).map
               (buildPage doc detector) } := by
  by_cases hv : range_invalid s e doc.total_pages
  · obtain ⟨_, msg, hmsg⟩ := extract_pages_failure doc detector output_dir
      pdf_path timestamp s e m hv
    rw [hmsg] at h
    exact absurd h (by simp)
  · rw [extract_pages_success doc detector output_dir pdf_path timestamp
      s e m hv] at h
    simp only [Except.ok.injEq] at h
    exact ⟨hv, h.symm⟩

/-! ## The detector enters the run only through its recovered result -/

lemma pageImages_congr (rasters : Nat → List RasterImg)
    (det det' : Nat → Except String (List VectorImg))
    (h : vectorResult det = vectorResult det') (pid : String) (p i : Nat) :
    pageImages rasters det pid p i = pageImages rasters det' pid p i := by
  rw [pageImages, pageImages, h]

lemma pageImageCount_congr (rasters : Nat → List RasterImg)
    (det det' : Nat → Except String (List VectorImg))
    (h : vectorResult det = vectorResult det') (p : Nat) :
    pageImageCount rasters det p = pageImageCount rasters det' p := by
  rw [pageImageCount, pageImageCount, h]

lemma extractImagesAux_congr (rasters : Nat → List RasterImg)
    (det det' : Nat → Except String (List VectorImg))
    (h : vectorResult det = vectorResult det') (pid : String)
    (pis : List Nat) (i : Nat) :
    extractImagesAux rasters det pid pis i =
      extractImagesAux rasters det' pid pis i := by
  induction pis generalizing i with
  | nil => rfl
  | cons p rest ih =>
    rw [extractImagesAux, extractImagesAux, pageImages_congr rasters det det' h,
      pageImageCount_congr rasters det det' h, ih]

lemma extract_pages_congr (doc : Doc)
    (det det' : Nat → Except String (List VectorImg))
    (h : vectorResult det = vectorResult det')
    (output_dir pdf_path timestamp : String) (s e : Int) (m : Bool) :
    extract_pages_from_pdf doc det output_dir pdf_path timestamp s e m =
      extract_pages_from_pdf doc det' output_dir pdf_path timestamp s e m := by
  have hb : buildPage doc det = buildPage doc det' := by
    funext g
    rw [buildPage, buildPage]
    simp only [extract_images_from_pages,
      extractImagesAux_congr doc.rasters det det' h]
  have hpe : pageEvents output_dir doc det = pageEvents output_dir doc det' := by
    funext g
    rw [pageEvents, pageEvents]
    simp only [extract_images_from_pages,
      extractImagesAux_congr doc.rasters det det' h]
  rw [extract_pages_from_pdf, extract_pages_from_pdf, hb, hpe]

/-! ## Concrete fixtures used by counterexamples and witnesses -/

/-- A five-page document with no embedded bitmaps. -/
def exDoc : Doc :=
  { total_pages := 5,
    render := fun _ =>
      { x := 0, y := 0, width := 100, height := 200, pix := fun _ _ => 7 },
    text := fun _ => "",
    rasters := fun _ => [] }

/-- A detector that finds no vector region anywhere. -/
def exDetOk : Nat → Except String (List VectorImg) := fun _ => .ok []

/-- Bitmap discovery with one bitmap on 0-based page 2 and none elsewhere. -/
def exRasters : Nat → List RasterImg := fun p => if p = 2 then [⟨10, 12⟩] else []

/-- A detector with one vector region on 0-based page 1 and none elsewhere. -/
def exDetVec : Nat → Except String (List VectorImg) :=
  fun p => if p = 1 then .ok [⟨5, 6⟩] else .ok []

/-- Bitmap discovery with one bitmap on every page. -/
def exRasters1 : Nat → List RasterImg := fun _ => [⟨3, 4⟩]

/-- A detector with one vector region on every page. -/
def exDetVec1 : Nat → Except String (List VectorImg) := fun _ => .ok [⟨5, 6⟩]

/-- A detector that raises on 0-based page 0. -/
def exDetErr : Nat → Except String (List VectorImg) :=
  fun p => if p = 0 then .error "boom" else .ok []

/-! ## The claims -/

/-- C1: with `spread_mode = true` and `start_page ≤ end_page`,
`get_page_groupings` returns exactly the spec's deterministic walk; with
`spread_mode = false` every page is its own singleton; and the four quoted
examples hold. -/
theorem C1_page_groupings_walk (s e : Nat) :
    (s ≤ e → get_page_groupings s e true = specSpreadWalk s e) ∧
    get_page_groupings s e false =
      (List.range' s (e + 1 - s)).map (fun p => [p]) ∧
    get_page_groupings 1 5 true = [[1], [2, 3], [4, 5]] ∧
    get_page_groupings 2 3 true = [[2, 3]] ∧
    get_page_groupings 3 4 true = [[3], [4]] ∧
    get_page_groupings 1 5 false = [[1], [2], [3], [4], [5]] := by
  refine ⟨fun _ => ?_, rfl, ?_, ?_, ?_, ?_⟩
  · simp only [get_page_groupings, if_pos]
    exact spreadGroupings_eq_specSpreadWalk s e
  · simp [get_page_groupings, spreadGroupings]
  · simp [get_page_groupings, spreadGroupings]
  · simp [get_page_groupings, spreadGroupings]
  · simp [get_page_groupings, List.range']

/-- Witness for C1 at `start = 2`, `end = 3`. -/
theorem C1_page_groupings_walk_witness :
    2 ≤ 3 ∧ get_page_groupings 2 3 true = specSpreadWalk 2 3 :=
  ⟨by decide, (C1_page_groupings_walk 2 3).1 (by decide)⟩

/-- C2: for valid bounds `1 ≤ start ≤ end ≤ total_pages` the flattened
`extracted_pages` of the successful run is exactly
`[start, start+1, …, end]`. -/
theorem C2_extracted_pages_exact_range (doc : Doc)
    (det : Nat → Except String (List VectorImg))
    (o p ts : String) (s e : Nat) (m : Bool)
    (h1 : 1 ≤ s) (h2 : s ≤ e) (h3 : e ≤ doc.total_pages) :
    ∃ ex, (extract_pages_from_pdf doc det o p ts (s : Int) (e : Int) m).2 =
        .ok ex ∧
      ex.pdf_metadata.extracted_pages = List.range' s (e + 1 - s) := by
  have hs : resolvedStart (s : Int) = (s : Int) := by
    rw [resolvedStart, if_neg (by omega)]
  have he : resolvedEnd (e : Int) doc.total_pages = (e : Int) := by
    rw [resolvedEnd, if_pos (by omega)]
    omega
  have hv : ¬ range_invalid (s : Int) (e : Int) doc.total_pages := by
    unfold range_invalid
    rw [hs, he]
    omega
  refine ⟨_, by rw [extract_pages_success doc det o p ts _ _ m hv], ?_⟩
  show (get_page_groupings (resolvedStart (s : Int)).toNat
      (resolvedEnd (e : Int) doc.total_pages).toNat m).flatten =
    List.range' s (e + 1 - s)
  rw [hs, he]
  have hsn : ((s : Int)).toNat = s := by omega
  have hen : ((e : Int)).toNat = e := by omega
  rw [hsn, hen]
  exact flatten_get_page_groupings s e m h1

/-- Witness for C2 at `start = 2`, `end = 5`, five pages, spread mode. -/
theorem C2_extracted_pages_exact_range_witness :
    1 ≤ 2 ∧ 2 ≤ 5 ∧ 5 ≤ exDoc.total_pages ∧
    ∃ ex, (extract_pages_from_pdf exDoc exDetOk "out" "in.pdf" "t"
        (2 : Int) (5 : Int) true).2 = .ok ex ∧
      ex.pdf_metadata.extracted_pages = List.range' 2 (5 + 1 - 2) :=
  ⟨by decide, by decide, by decide,
    C2_extracted_pages_exact_range exDoc exDetOk "out" "in.pdf" "t" 2 5 true
      (by decide) (by decide) (by decide)⟩

/-- C3 (amended): within one processing unit the image indices start at 0 and
are contiguous in processing order, and within the images of each single
physical page every raster image is numbered before every vector image.  (The
claim's unit-wide raster-before-vector ordering fails for multi-page units;
see the counterexample.) -/
theorem C3_index_contiguous_raster_first (rasters : Nat → List RasterImg)
    (det : Nat → Except String (List VectorImg)) (pis : List Nat)
    (pid : String) :
    ((extract_images_from_pages rasters det pis pid).map Image.index =
      List.range (extract_images_from_pages rasters det pis pid).length) ∧
    ∀ p i, ∀ r ∈ pageImages rasters det pid p i,
      ∀ v ∈ pageImages rasters det pid p i,
        r.image_type = "raster" → v.image_type = "vector" → r.index < v.index :=
  ⟨extract_images_map_index rasters det pis pid,
    fun p i => pageImages_raster_before_vector rasters det pid p i⟩

/-- Witness for C3: a page with one bitmap and one vector region. -/
theorem C3_index_contiguous_raster_first_witness :
    ∃ r ∈ pageImages exRasters1 exDetVec1 "u" 0 0,
      ∃ v ∈ pageImages exRasters1 exDetVec1 "u" 0 0,
        r.image_type = "raster" ∧ v.image_type = "vector" ∧ r.index < v.index := by
  have hmap : (pageImages exRasters1 exDetVec1 "u" 0 0).map
      (fun i => (i.image_type, i.index)) = [("raster", 0), ("vector", 1)] := rfl
  have hr : (("raster", 0) : String × Nat) ∈
      (pageImages exRasters1 exDetVec1 "u" 0 0).map
        (fun i => (i.image_type, i.index)) := by
    rw [hmap]; simp
  have hv : (("vector", 1) : String × Nat) ∈
      (pageImages exRasters1 exDetVec1 "u" 0 0).map
        (fun i => (i.image_type, i.index)) := by
    rw [hmap]; simp
  obtain ⟨r, hrmem, hrpr⟩ := List.mem_map.mp hr
  obtain ⟨v, hvmem, hvpr⟩ := List.mem_map.mp hv
  simp only [Prod.mk.injEq] at hrpr hvpr
  exact ⟨r, hrmem, v, hvmem, hrpr.1, hvpr.1,
    (C3_index_contiguous_raster_first exRasters1 exDetVec1 [0] "u").2 0 0
      r hrmem v hvmem hrpr.1 hvpr.1⟩

/-- C3 counterexample: in a two-page unit where the first page contributes a
vector image and the second page a raster image (here the spread unit (2,3),
0-based indices [1, 2]), the raster image's index (1) is larger than the
vector image's index (0) — the unit-wide raster-before-vector numbering
stated by the claim fails. -/
theorem C3_counterexample :
    ¬ (∀ r ∈ extract_images_from_pages exRasters exDetVec [1, 2] "p2_3",
        ∀ v ∈ extract_images_from_pages exRasters exDetVec [1, 2] "p2_3",
          r.image_type = "raster" → v.image_type = "vector" →
            r.index < v.index) := by
  intro h
  have hmap : (extract_images_from_pages exRasters exDetVec [1, 2]
      "p2_3").map (fun i => (i.image_type, i.index)) =
      [("vector", 0), ("raster", 1)] := rfl
  have hr : (("raster", 1) : String × Nat) ∈
      (extract_images_from_pages exRasters exDetVec [1, 2] "p2_3").map
        (fun i => (i.image_type, i.index)) := by
    rw [hmap]; simp
  have hv : (("vector", 0) : String × Nat) ∈
      (extract_images_from_pages exRasters exDetVec [1, 2] "p2_3").map
        (fun i => (i.image_type, i.index)) := by
    rw [hmap]; simp
  obtain ⟨r, hrmem, hrpr⟩ := List.mem_map.mp hr
  obtain ⟨v, hvmem, hvpr⟩ := List.mem_map.mp hv
  simp only [Prod.mk.injEq] at hrpr hvpr
  have hlt := h r hrmem v hvmem hrpr.1 hvpr.1
  rw [hrpr.2, hvpr.2] at hlt
  exact absurd hlt (by decide)

/-- C4: in every `PDFExtract` produced by `extract_pages_from_pdf`, the
`image_id` values are pairwise distinct across all pages of the extract. -/
theorem C4_image_ids_unique (doc : Doc)
    (det : Nat → Except String (List VectorImg)) (o p ts : String)
    (s e : Int) (m : Bool) (ex : PDFExtract)
    (h : (extract_pages_from_pdf doc det o p ts s e m).2 = .ok ex) :
    ((ex.pages.map Page.images).flatten.map Image.image_id).Nodup := by
  obtain ⟨hv, rfl⟩ := extract_pages_ok_inv doc det o p ts s e m ex h
  have key := groupings_imageIds_nodup doc.rasters det
    (resolvedStart s).toNat (resolvedEnd e doc.total_pages).toNat m
  show ((((get_page_groupings (resolvedStart s).toNat
      (resolvedEnd e doc.total_pages).toNat m).map
        (buildPage doc det)).map Page.images).flatten.map Image.image_id).Nodup
  rw [List.map_flatten]
  simp only [List.map_map]
  convert key using 2

/-- A five-page document with one bitmap on every page. -/
def exDocR : Doc :=
  { total_pages := 5,
    render := fun _ =>
      { x := 0, y := 0, width := 10, height := 10, pix := fun _ _ => 0 },
    text := fun _ => "",
    rasters := exRasters1 }

/-- Witness for C4: a concrete run over five pages with images on every
page. -/
theorem C4_image_ids_unique_witness :
    ∃ ex, (extract_pages_from_pdf exDocR exDetVec1 "out" "in.pdf" "t"
        1 5 true).2 = .ok ex ∧
      ((ex.pages.map Page.images).flatten.map Image.image_id).Nodup := by
  have hv : ¬ range_invalid 1 5 exDocR.total_pages := by decide
  have hok : ∃ ex, (extract_pages_from_pdf exDocR exDetVec1 "out" "in.pdf"
      "t" 1 5 true).2 = .ok ex := by
    rw [extract_pages_success exDocR exDetVec1 "out" "in.pdf" "t" 1 5 true hv]
    exact ⟨_, rfl⟩
  obtain ⟨ex, hex⟩ := hok
  exact ⟨ex, hex, C4_image_ids_unique exDocR exDetVec1 "out" "in.pdf" "t"
    1 5 true ex hex⟩

/-- Two 100×200 renderings with bounding box origin (0, 0) — the shape
`page.get_pixmap(matrix=FITZ_MAT)` produces for the two equal pages of a
spread. -/
def exRender3 : Nat → Pixmap :=
  fun p => { x := 0, y := 0, width := 100, height := 200,
             pix := fun _ _ => if p = 0 then 7 else 9 }

/-- C5: the claim states the intended stitching — members composited
left-to-right at their width offsets, vertically centred, on a white
`(Σ widths, max heights)` canvas — and the code's own comments state the
same intent; but `Pixmap.copy` (`fz_copy_pixmap_rect`) copies
position-identically inside the rectangle clipped to the source's own
bounding box, and the code never calls `set_origin` to relocate a member.
Evaluated on a spread of two 100×200 renderings: the canvas has the claimed
size and the first member lands position-identically, but the second
member's rectangle `IRect(100, 0, 200, 200)` misses the source's bbox
`(0, 0, 100, 200)` entirely, so the canvas pixel (150, 100) — where the
claim places the second member's pixel (50, 100), of colour 9 — stays
white (255). -/
theorem C5_copy_does_not_translate :
    ∃ c, stitch_page_images exRender3 [0, 1] = some c ∧
      c.width = 200 ∧ c.height = 200 ∧
      c.pix 50 100 = 7 ∧
      (exRender3 1).pix 50 100 = 9 ∧
      c.pix 150 100 = 255 :=
  ⟨_, rfl, by decide, by decide, by decide, by decide, by decide⟩

/-- C6: a detector failure on one page is caught and treated as zero vector
images for that page: the whole run is identical to one where the detector
returned an empty list there. -/
theorem C6_detector_failure_degrades (doc : Doc)
    (det : Nat → Except String (List VectorImg)) (pg : Nat) (msg : String)
    (o p ts : String) (s e : Int) (m : Bool) (h : det pg = .error msg) :
    extract_pages_from_pdf doc det o p ts s e m =
      extract_pages_from_pdf doc
        (fun q => if q = pg then .ok [] else det q) o p ts s e m := by
  apply extract_pages_congr
  funext q
  by_cases hq : q = pg
  · subst hq
    simp [vectorResult, h]
  · simp [vectorResult, hq]

/-- Witness for C6: a detector raising on page 0. -/
theorem C6_detector_failure_degrades_witness :
    exDetErr 0 = .error "boom" ∧
    extract_pages_from_pdf exDoc exDetErr "out" "in.pdf" "t" 1 5 true =
      extract_pages_from_pdf exDoc
        (fun q => if q = 0 then .ok [] else exDetErr q) "out" "in.pdf" "t"
        1 5 true :=
  ⟨rfl, C6_detector_failure_degrades exDoc exDetErr 0 "boom" "out" "in.pdf"
    "t" 1 5 true rfl⟩

/-- The error condition exactly as the claim words it: `end_page == 0`
resolves to `total_pages`, `start_page == 0` to `1`, and an error is raised
iff the resolved start is below 1 or above `total_pages` or the resolved end
is below the resolved start. -/
def claimedRangeError (s e : Int) (total : Nat) : Prop :=
  resolvedStart s < 1 ∨ resolvedStart s > (total : Int) ∨
    (if e = 0 then (total : Int) else e) < resolvedStart s

instance (s e : Int) (total : Nat) : Decidable (claimedRangeError s e total) := by
  unfold claimedRangeError
  infer_instance

/-- C7 counterexample: for `start_page = 1`, `end_page = -1` on a five-page
document the claim's resolution (`end_page == 0 → total_pages`) predicts an
error (`-1 < 1`), but the code resolves every non-positive `end_page` to
`total_pages` and raises none. -/
theorem C7_counterexample :
    ¬ ((∃ msg, (extract_pages_from_pdf exDoc exDetOk "out" "in.pdf" "t"
        1 (-1) false).2 = Except.error msg) ↔
      claimedRangeError 1 (-1) exDoc.total_pages) := by
  intro hiff
  have hc : claimedRangeError 1 (-1) exDoc.total_pages := by decide
  obtain ⟨msg, hmsg⟩ := hiff.mpr hc
  have hok : (extract_pages_from_pdf exDoc exDetOk "out" "in.pdf" "t"
      1 (-1) false).2.isOk = true := rfl
  rw [hmsg] at hok
  exact Bool.noConfusion hok

/-- The claim's error condition amended minimally: every `end_page ≤ 0`
(not only `== 0`) resolves to `total_pages`. -/
def amendedRangeError (s e : Int) (total : Nat) : Prop :=
  resolvedStart s < 1 ∨ resolvedStart s > (total : Int) ∨
    (if e ≤ 0 then (total : Int) else e) < resolvedStart s

/-- C7 (amended): after resolving `start_page == 0` to 1 and `end_page ≤ 0`
to `total_pages`, `extract_pages_from_pdf` raises a range error iff the
resolved start is `< 1` or `> total_pages` or the resolved end is below the
resolved start; no other input raises one. -/
theorem C7_validation_iff (doc : Doc)
    (det : Nat → Except String (List VectorImg)) (o p ts : String)
    (s e : Int) (m : Bool) :
    (∃ msg, (extract_pages_from_pdf doc det o p ts s e m).2 =
        Except.error msg) ↔
      amendedRangeError s e doc.total_pages := by
  have hequiv : range_invalid s e doc.total_pages ↔
      amendedRangeError s e doc.total_pages := by
    unfold range_invalid amendedRangeError resolvedEnd resolvedStart
    split_ifs <;> omega
  constructor
  · rintro ⟨msg, hmsg⟩
    by_cases hv : range_invalid s e doc.total_pages
    · exact hequiv.mp hv
    · exact absurd hmsg
        (extract_pages_no_error_of_valid doc det o p ts s e m hv msg)
  · intro ha
    obtain ⟨_, msg, hmsg⟩ := extract_pages_failure doc det o p ts s e m
      (hequiv.mpr ha)
    exact ⟨msg, hmsg⟩

/-- Witness for C7: the equivalence instantiated at an out-of-range start. -/
theorem C7_validation_iff_witness :
    (∃ msg, (extract_pages_from_pdf exDoc exDetOk "out" "in.pdf" "t"
        7 2 false).2 = Except.error msg) ↔
      amendedRangeError 7 2 exDoc.total_pages :=
  C7_validation_iff exDoc exDetOk "out" "in.pdf" "t" 7 2 false

/-- C8 counterexample: an out-of-range request (`start_page = 10` on a
five-page document) raises the validation error, yet the trace before the
error is not empty — the output directory and its subdirectories were
created and the PDF was read before validation. -/
theorem C8_counterexample :
    (∃ msg, (extract_pages_from_pdf exDoc exDetOk "out" "in.pdf" "t"
        10 0 false).2 = Except.error msg) ∧
    (extract_pages_from_pdf exDoc exDetOk "out" "in.pdf" "t" 10 0 false).1 ≠
      [] := by
  refine ⟨⟨"start page out of range", rfl⟩, ?_⟩
  have h1 : (extract_pages_from_pdf exDoc exDetOk "out" "in.pdf" "t"
      10 0 false).1 = preEvents "out" "in.pdf" := rfl
  rw [h1]
  intro h
  have := congrArg List.length h
  simp [preEvents] at this

/-- C8 (amended): on an invalid range the validation error is raised before
any file is written — the trace is exactly the three directory creations and
the PDF read, and contains no write event. -/
theorem C8_no_writes_before_error (doc : Doc)
    (det : Nat → Except String (List VectorImg)) (o p ts : String)
    (s e : Int) (m : Bool) (h : range_invalid s e doc.total_pages) :
    (extract_pages_from_pdf doc det o p ts s e m).1 = preEvents o p ∧
    (∃ msg, (extract_pages_from_pdf doc det o p ts s e m).2 =
      Except.error msg) ∧
    ∀ ev ∈ (extract_pages_from_pdf doc det o p ts s e m).1,
      ∀ path, ev ≠ FsEvent.writeFile path := by
  obtain ⟨h1, h2⟩ := extract_pages_failure doc det o p ts s e m h
  refine ⟨h1, h2, ?_⟩
  rw [h1]
  intro ev hev path
  simp only [preEvents, List.mem_cons, List.mem_singleton] at hev
  rcases hev with rfl | rfl | rfl | rfl | h'
  · simp
  · simp
  · simp
  · simp
  · simp at h'

/-- Witness for the amended C8 at `start_page = 10` on a five-page document,
with the no-write property instantiated at the first trace event. -/
theorem C8_no_writes_before_error_witness :
    range_invalid 10 0 exDoc.total_pages ∧
    (extract_pages_from_pdf exDoc exDetOk "out" "in.pdf" "t" 10 0 false).1 =
      preEvents "out" "in.pdf" ∧
    (∃ msg, (extract_pages_from_pdf exDoc exDetOk "out" "in.pdf" "t"
      10 0 false).2 = Except.error msg) ∧
    FsEvent.mkDir "out" ∈ (extract_pages_from_pdf exDoc exDetOk "out"
      "in.pdf" "t" 10 0 false).1 ∧
    ∀ path, FsEvent.mkDir "out" ≠ FsEvent.writeFile path := by
  have h := C8_no_writes_before_error exDoc exDetOk "out" "in.pdf" "t"
    10 0 false (by decide)
  have hmem : FsEvent.mkDir "out" ∈ (extract_pages_from_pdf exDoc exDetOk
      "out" "in.pdf" "t" 10 0 false).1 := by
    rw [h.1]
    exact List.mem_cons_self _ _
  exact ⟨by decide, h.1, h.2.1, hmem, h.2.2 _ hmem⟩

/-- A concrete extract used by the C9 counterexample. -/
def exExtract : PDFExtract :=
  { pdf_metadata :=
      { filename := "f", total_pages := 1, extracted_pages := [1],
        extraction_timestamp := "t", start_page := 1, end_page := 1,
        spread_mode := false },
    pages := [] }

/-- C9 counterexample: the serialized top-level object carries the key
`pdf_metadata` (the declared field name), not `metadata` as the data model
section states. -/
theorem C9_counterexample :
    "metadata" ∉ (PDFExtract.toJson exExtract).objKeys ∧
    (PDFExtract.toJson exExtract).objKeys ≠ ["metadata", "pages"] := by
  constructor
  · intro h
    simp [PDFExtract.toJson, JsonVal.objKeys] at h
  · intro h
    simp [PDFExtract.toJson, JsonVal.objKeys] at h

/-- C9 (amended): the serialized `pdf_extract.json` uses the data model's
field names everywhere except the top level, which serializes the metadata
under `pdf_metadata` (not `metadata`) and the pages under `pages`. -/
theorem C9_serialized_field_names (ex : PDFExtract) :
    (PDFExtract.toJson ex).objKeys = ["pdf_metadata", "pages"] ∧
    (Metadata.toJson ex.pdf_metadata).objKeys =
      ["filename", "total_pages", "extracted_pages", "extraction_timestamp",
        "start_page", "end_page", "spread_mode"] ∧
    (∀ pg ∈ ex.pages, (Page.toJson pg).objKeys =
      ["page_id", "page_number", "page_image_path", "text", "images"]) ∧
    (∀ pg ∈ ex.pages, ∀ im ∈ pg.images, (Image.toJson im).objKeys =
      ["image_id", "page_id", "index", "image_path", "chart_path", "width",
        "height", "image_type"]) :=
  ⟨rfl, rfl, fun _ _ => rfl, fun _ _ _ _ => rfl⟩

/-- A one-image record for the C9 witness. -/
def exImage1 : Image :=
  { image_id := "img_p1_r0", page_id := "p1", index := 0,
    image_path := "images/img_p1_r0.png",
    chart_path := "images/img_p1_r0_chart.png", width := 1, height := 1,
    image_type := "raster" }

/-- A one-page record for the C9 witness. -/
def exPage1 : Page :=
  { page_id := "p1", page_number := 1, page_image_path := "pages/page_1.png",
    text := "", images := [exImage1] }

/-- A one-page, one-image extract witnessing C9's quantifiers. -/
def exExtract1 : PDFExtract :=
  { pdf_metadata :=
      { filename := "f", total_pages := 1, extracted_pages := [1],
        extraction_timestamp := "t", start_page := 1, end_page := 1,
        spread_mode := false },
    pages := [exPage1] }

/-- Witness for the amended C9 on a one-page, one-image extract, with the
per-page and per-image quantifiers instantiated. -/
theorem C9_serialized_field_names_witness :
    exPage1 ∈ exExtract1.pages ∧ exImage1 ∈ exPage1.images ∧
    (PDFExtract.toJson exExtract1).objKeys = ["pdf_metadata", "pages"] ∧
    (Page.toJson exPage1).objKeys =
      ["page_id", "page_number", "page_image_path", "text", "images"] ∧
    (Image.toJson exImage1).objKeys =
      ["image_id", "page_id", "index", "image_path", "chart_path", "width",
        "height", "image_type"] :=
  ⟨List.mem_cons_self _ _, List.mem_cons_self _ _,
    (C9_serialized_field_names exExtract1).1,
    (C9_serialized_field_names exExtract1).2.2.1 exPage1
      (List.mem_cons_self _ _),
    (C9_serialized_field_names exExtract1).2.2.2 exPage1
      (List.mem_cons_self _ _) exImage1 (List.mem_cons_self _ _)⟩

/-- C10 (implicit): a requested `end_page` beyond `total_pages` raises no
error; it is clamped to `total_pages`, and the run extracts exactly up to the
last document page. -/
theorem C10_end_page_clamped (doc : Doc)
    (det : Nat → Except String (List VectorImg)) (o p ts : String)
    (s e : Int) (m : Bool) (h1 : 1 ≤ s) (h2 : s ≤ (doc.total_pages : Int))
    (h3 : (doc.total_pages : Int) < e) :
    ∃ ex, (extract_pages_from_pdf doc det o p ts s e m).2 = .ok ex ∧
      ex.pdf_metadata.end_page = doc.total_pages ∧
      ex.pdf_metadata.extracted_pages =
        List.range' s.toNat (doc.total_pages + 1 - s.toNat) := by
  have hs : resolvedStart s = s := by
    rw [resolvedStart, if_neg (by omega)]
  have he : resolvedEnd e doc.total_pages = (doc.total_pages : Int) := by
    rw [resolvedEnd, if_pos (by omega)]
    omega
  have hv : ¬ range_invalid s e doc.total_pages := by
    unfold range_invalid
    rw [hs, he]
    omega
  refine ⟨_, by rw [extract_pages_success doc det o p ts _ _ m hv], ?_, ?_⟩
  · show (resolvedEnd e doc.total_pages).toNat = doc.total_pages
    rw [he]
    omega
  · show (get_page_groupings (resolvedStart s).toNat
        (resolvedEnd e doc.total_pages).toNat m).flatten =
      List.range' s.toNat (doc.total_pages + 1 - s.toNat)
    rw [hs, he]
    have hen : ((doc.total_pages : Int)).toNat = doc.total_pages := by omega
    rw [hen]
    exact flatten_get_page_groupings s.toNat doc.total_pages m (by omega)

/-- Witness for C10: requesting pages 2 to 100 of a five-page document. -/
theorem C10_end_page_clamped_witness :
    (1 : Int) ≤ 2 ∧ (2 : Int) ≤ (exDoc.total_pages : Int) ∧
    ((exDoc.total_pages : Int) < 100) ∧
    ∃ ex, (extract_pages_from_pdf exDoc exDetOk "out" "in.pdf" "t"
        2 100 true).2 = .ok ex ∧
      ex.pdf_metadata.end_page = exDoc.total_pages ∧
      ex.pdf_metadata.extracted_pages =
        List.range' (2 : Int).toNat (exDoc.total_pages + 1 - (2 : Int).toNat) :=
  ⟨by decide, by decide, by decide,
    C10_end_page_clamped exDoc exDetOk "out" "in.pdf" "t" 2 100 true
      (by decide) (by decide) (by decide)⟩

end PDFTool
